import Mathlib

/-!
Verification of the revng-orchestra execution core against its
natural-language specification.

The definitions below are a shallow embedding of the Python sources:
  * `src/orchestra/actions/action.py`   (Action / ActionForComponent / ActionForBuild)
  * `src/orchestra/actions/clone.py`    (CloneAction)
  * `src/orchestra/actions/util/__init__.py` (script-runner wrappers)
  * `src/orchestra/cmds/graph.py`       (dependency-graph diagnostics)

Python `OrderedDict` environments are embedded as association lists that
preserve insertion order; filesystem probes, subprocess execution and
`git ls-remote` output are passed in as explicit oracle functions, so that
every definition stays executable and the embedded code's control flow can
be followed literally.
-/

namespace Orchestra

/-- A Python exception kind, as far as this core raises them. -/
inductive PyError where
  | keyError (key : String)
  | typeError
  | notImplementedError
  | attributeError
  deriving DecidableEq, Repr

/-- An ordered environment mapping, embedding `collections.OrderedDict`
(insertion order preserved, keys unique in any state produced by the code). -/
abbrev Env := List (String × String)

/-- Lookup of `env[key]`: first binding of `key` wins. -/
def odLookup : Env → String → Option String
  | [], _ => none
  | (k, v) :: rest, key => if k = key then some v else odLookup rest key

/-- Assignment `env[key] = val` on an `OrderedDict`: an existing key keeps its
position and gets the new value, a fresh key is appended at the end. -/
def odSet : Env → String → String → Env
  | [], key, val => [(key, val)]
  | (k, v) :: rest, key, val =>
      if k = key then (key, val) :: rest else (k, v) :: odSet rest key val

/-- Whether a string starts with the path separator (character-level model of
Python's `b.startswith("/")`, kept kernel-reducible). -/
def startsWithSlash (s : String) : Bool :=
  match s.data with
  | [] => false
  | c :: _ => c = '/'

/-- Whether a string ends with the path separator (character-level model of
Python's `a.endswith("/")`, kept kernel-reducible). -/
def endsWithSlash (s : String) : Bool :=
  match s.data.getLast? with
  | none => false
  | some c => c = '/'

/-- `os.path.join` for exactly two components (POSIX rules: an absolute second
component replaces the first, a trailing separator suppresses the inserted one). -/
def pathJoin (a b : String) : String :=
  if startsWithSlash b then b
  else if a = "" || endsWithSlash a then a ++ b
  else a ++ "/" ++ b

instance {ε σ : Type} [DecidableEq ε] [DecidableEq σ] : DecidableEq (Except ε σ) :=
  fun a b =>
    match a, b with
    | .ok x, .ok y =>
        if h : x = y then isTrue (by rw [h]) else isFalse (by intro hc; cases hc; exact h rfl)
    | .error x, .error y =>
        if h : x = y then isTrue (by rw [h]) else isFalse (by intro hc; cases hc; exact h rfl)
    | .ok _, .error _ => isFalse (by intro hc; cases hc)
    | .error _, .ok _ => isFalse (by intro hc; cases hc)

/-! ## Clone script synthesis (`CloneAction.script`, clone.py lines 14-29) -/

/-- `CloneAction.branches()` (clone.py lines 34-36). -/
def branches : List String := ["develop", "master"]

/-- `CloneAction.script` (clone.py lines 14-29), transliterated statement by
statement.  `remotes` is `self.config.remotes.values()` in priority order and
`repository` is `self.repository`. -/
def cloneActionScript (remotes : List String) (repository : String) : String :=
  let clone_cmds := remotes.map (fun remote_base_url =>
    "git clone \"" ++ remote_base_url ++ "/" ++ repository ++ "\" \"$SOURCE_DIR\"")
  let script := String.intercalate " || \\\n  " clone_cmds
  let script := script ++ "\n"
  let script := script ++ "git -C \"$SOURCE_DIR\" branch -m orchestra-temporary\n"
  let checkout_cmds := branches.map (fun branch =>
    "git -C \"$SOURCE_DIR\" checkout -b \"" ++ branch ++ "\" \"origin/" ++ branch ++ "\"")
  let checkout_cmds := checkout_cmds ++ ["true"]
  script ++ String.intercalate " || \\\n  " checkout_cmds

/-- Shell OR-chaining of a command list, as the claim describes it. -/
def orChain (cmds : List String) : String :=
  String.intercalate " || \\\n  " cmds

/-- The clone command the claim prescribes for one remote. -/
def claimCloneCmd (repository remote_base_url : String) : String :=
  "git clone \"" ++ remote_base_url ++ "/" ++ repository ++ "\" \"$SOURCE_DIR\""

/-- The checkout command the claim prescribes for one branch. -/
def claimCheckoutCmd (branch : String) : String :=
  "git -C \"$SOURCE_DIR\" checkout -b \"" ++ branch ++ "\" \"origin/" ++ branch ++ "\""

/-- The script shape the claim prescribes: the OR-chained clone attempts in
priority order, then the single rename to the sentinel branch
`orchestra-temporary`, then OR-chained checkouts for develop then master,
terminated by `true`. -/
def claimCloneScript (remotes : List String) (repository : String) : String :=
  orChain (remotes.map (claimCloneCmd repository)) ++ "\n"
    ++ "git -C \"$SOURCE_DIR\" branch -m orchestra-temporary\n"
    ++ orChain (["develop", "master"].map claimCheckoutCmd ++ ["true"])

/-- C1: the synthesized clone script is exactly the clone attempts OR-chained
in configured priority order, then the single rename of the freshly cloned
default branch to the sentinel `orchestra-temporary`, then one checkout per
preferred branch (develop then master) OR-chained and terminated by `true`. -/
theorem c1_clone_script_synthesis (remotes : List String) (repository : String) :
    cloneActionScript remotes repository = claimCloneScript remotes repository := by
  have h : claimCloneCmd repository = fun remote_base_url =>
      "git clone \"" ++ remote_base_url ++ "/" ++ repository ++ "\" \"$SOURCE_DIR\"" := by
    funext r
    rfl
  simp [cloneActionScript, claimCloneScript, branches, orChain, h, claimCheckoutCmd]

set_option maxRecDepth 8192 in
example :
    cloneActionScript ["A", "B"] "foo" =
      "git clone \"A/foo\" \"$SOURCE_DIR\" || \\\n  git clone \"B/foo\" \"$SOURCE_DIR\"\n"
        ++ "git -C \"$SOURCE_DIR\" branch -m orchestra-temporary\n"
        ++ "git -C \"$SOURCE_DIR\" checkout -b \"develop\" \"origin/develop\" || \\\n  "
        ++ "git -C \"$SOURCE_DIR\" checkout -b \"master\" \"origin/master\" || \\\n  true" := by
  decide

/-! ## Action dependency sets (action.py lines 34-49) -/

/-- The dependency-relevant state of one `Action`: the mutable explicit set,
the subclass-computed implicit set (`_implicit_dependencies`, empty in the
base class), and the optional subclass override of
`_implicit_dependencies_for_hash` (the base implementation just calls
`_implicit_dependencies`). -/
structure ActionDeps (α : Type) where
  explicit : Finset α
  implicit : Finset α
  implicitForHashOverride : Option (Finset α)

variable {α : Type} [DecidableEq α]

/-- `Action._implicit_dependencies_for_hash` (action.py lines 48-49): the
subclass override when present, otherwise `_implicit_dependencies()`. -/
def ActionDeps.implicitForHash (a : ActionDeps α) : Finset α :=
  a.implicitForHashOverride.getD a.implicit

/-- `Action.add_explicit_dependency` (action.py lines 34-35): set insertion. -/
def ActionDeps.addExplicitDependency (a : ActionDeps α) (dependency : α) : ActionDeps α :=
  { a with explicit := insert dependency a.explicit }

/-- `Action.dependencies` (action.py lines 37-39). -/
def ActionDeps.dependencies (a : ActionDeps α) : Finset α :=
  a.explicit ∪ a.implicit

/-- `Action.dependencies_for_hash` (action.py lines 41-43). -/
def ActionDeps.dependenciesForHash (a : ActionDeps α) : Finset α :=
  a.explicit ∪ a.implicitForHash

/-- C6: `dependencies` is the union of the explicit and implicit sets,
`dependencies_for_hash` is the union of the explicit and implicit-for-hash
sets, the implicit-for-hash set defaults to the implicit set when not
overridden, and inserting an explicit dependency that is already present
leaves `dependencies` unchanged. -/
theorem c6_dependency_sets (a : ActionDeps α) (d : α) :
    a.dependencies = a.explicit ∪ a.implicit
      ∧ a.dependenciesForHash = a.explicit ∪ a.implicitForHash
      ∧ (a.implicitForHashOverride = none → a.implicitForHash = a.implicit)
      ∧ (d ∈ a.explicit → (a.addExplicitDependency d).dependencies = a.dependencies) := by
  refine ⟨rfl, rfl, ?_, ?_⟩
  · intro h
    simp [ActionDeps.implicitForHash, h]
  · intro hd
    simp [ActionDeps.addExplicitDependency, ActionDeps.dependencies,
      Finset.insert_eq_self.mpr hd]

/-- Witness for C6 at a concrete action: explicit = {1, 2}, implicit = {3},
no hash override; re-adding dependency 1 changes nothing. -/
theorem c6_dependency_sets_witness :
    (ActionDeps.mk {1, 2} {3} none : ActionDeps ℕ).dependencies = {1, 2} ∪ {3}
      ∧ (ActionDeps.mk {1, 2} {3} none : ActionDeps ℕ).implicitForHash = {3}
      ∧ ((ActionDeps.mk {1, 2} {3} none : ActionDeps ℕ).addExplicitDependency 1).dependencies
          = (ActionDeps.mk {1, 2} {3} none : ActionDeps ℕ).dependencies := by
  have h := c6_dependency_sets (ActionDeps.mk {1, 2} {3} none : ActionDeps ℕ) 1
  exact ⟨h.1, h.2.2.1 rfl, h.2.2.2 (by decide)⟩

/-! ## Action.run in pretend mode (action.py lines 20-27) -/

/-- An observable side effect of running an action.  `log` is the only effect
`Action.run` itself produces; everything a concrete `_run` implementation may
do (spawning subprocesses, touching the filesystem) is some list of the other
effects, supplied as the `runEffects` parameter below. -/
inductive Effect where
  | log (msg : String)
  | spawnSubprocess (cmd : String)
  | fsCreate (path : String)
  | fsDelete (path : String)
  | fsModify (path : String)
  deriving DecidableEq, Repr

/-- `Action.run` (action.py lines 20-23) as an effect trace: it logs
`Executing <self>` and, only when not in pretend mode, performs the effects of
the overridable `_run` step. -/
def actionRun (runEffects : List Effect) (pretend : Bool) (selfRepr : String) : List Effect :=
  Effect.log ("Executing " ++ selfRepr) :: (if pretend then [] else runEffects)

/-- C7: `run(pretend=True)` only logs the intended execution: whatever the
overridable `_run` step would do, the pretend-mode trace is exactly the one
log entry, so no subprocess is spawned and no filesystem path is created,
deleted or modified. -/
theorem c7_run_pretend_no_effects (runEffects : List Effect) (selfRepr : String) :
    actionRun runEffects true selfRepr = [Effect.log ("Executing " ++ selfRepr)]
      ∧ ∀ e ∈ actionRun runEffects true selfRepr,
          (match e with
            | Effect.log _ => True
            | _ => False) := by
  refine ⟨rfl, ?_⟩
  intro e he
  simp [actionRun] at he
  simp [he]

/-! ## CloneAction construction (clone.py lines 9-11, action.py lines 14-18) -/

/-- A Python value, as far as argument passing needs to distinguish them. -/
inductive PyVal where
  | str (s : String)
  | pyNone
  | obj (id : ℕ)
  deriving DecidableEq, Repr

/-- Binding of positional arguments to a parameter list (`self` excluded): a
call with a different number of positional arguments than the function's
parameters raises `TypeError`. -/
def bindArgs (params : List String) (args : List PyVal) :
    Except PyError (List (String × PyVal)) :=
  if args.length = params.length then .ok (params.zip args) else .error .typeError

/-- The parameters of `Action.__init__` after `self` (action.py line 14). -/
def actionInitParams : List String := ["name", "script", "config"]

/-- The parameters of `CloneAction.__init__` after `self` (clone.py line 10). -/
def cloneActionInitParams : List String := ["build", "repository", "config"]

/-- `CloneAction(build, repository, config)` (clone.py lines 10-11): bind the
constructor's own three arguments, then forward the four positional arguments
`("clone", build, None, config)` to `Action.__init__`, which has only three
parameters. -/
def cloneActionConstruct (build repository config : PyVal) :
    Except PyError (List (String × PyVal)) := do
  let _ ← bindArgs cloneActionInitParams [build, repository, config]
  bindArgs actionInitParams [PyVal.str "clone", build, PyVal.pyNone, config]

/-- C3: constructing a `CloneAction` always raises `TypeError`, because
`CloneAction.__init__` forwards four positional arguments to the three-parameter
`Action.__init__`; no `CloneAction` instance can be constructed. -/
theorem c3_clone_action_constructor_type_error (build repository config : PyVal) :
    cloneActionConstruct build repository config = .error .typeError := by
  rfl

/-! ## Environment composition (action.py lines 55-58, 103-107, 119-126) -/

/-- `Action.environment` (action.py lines 55-58): exactly the configuration's
global environment (`self.config.global_env()`). -/
def actionEnvironment (globalEnv : Env) : Env := globalEnv

/-- `ActionForComponent.environment` (action.py lines 103-107): the base
environment with `SOURCE_DIR = os.path.join(config.sources_dir, component.name)`
assigned. -/
def actionForComponentEnvironment (globalEnv : Env) (sourcesDir componentName : String) :
    Env :=
  odSet (actionEnvironment globalEnv) "SOURCE_DIR" (pathJoin sourcesDir componentName)

/-- `ActionForBuild.environment` (action.py lines 119-126): the component
environment with `BUILD_DIR = os.path.join(config.builds_dir, component.name,
build.name)` assigned, then `TMP_ROOT = os.path.join(env["TMP_ROOTS"],
build.safe_name)`; the `env["TMP_ROOTS"]` read raises `KeyError` when the
composed environment has no `TMP_ROOTS` entry. -/
def actionForBuildEnvironment (globalEnv : Env)
    (sourcesDir buildsDir componentName buildName safeName : String) :
    Except PyError Env :=
  let env := actionForComponentEnvironment globalEnv sourcesDir componentName
  let env := odSet env "BUILD_DIR" (pathJoin (pathJoin buildsDir componentName) buildName)
  match odLookup env "TMP_ROOTS" with
  | none => .error (.keyError "TMP_ROOTS")
  | some tmpRoots => .ok (odSet env "TMP_ROOT" (pathJoin tmpRoots safeName))

theorem odLookup_odSet_self (env : Env) (k v : String) :
    odLookup (odSet env k v) k = some v := by
  induction env with
  | nil => simp [odSet, odLookup]
  | cons p rest ih =>
    by_cases hp : p.1 = k
    · simp [odSet, hp, odLookup]
    · simpa [odSet, hp, odLookup] using ih

theorem odLookup_odSet_other (env : Env) (k v k' : String) (hne : k' ≠ k) :
    odLookup (odSet env k v) k' = odLookup env k' := by
  induction env with
  | nil => simp [odSet, odLookup, Ne.symm hne]
  | cons p rest ih =>
    by_cases hp : p.1 = k
    · simp [odSet, hp, odLookup, Ne.symm hne]
    · by_cases hp' : p.1 = k'
      · simp [odSet, hp, odLookup, hp', hne]
      · simpa [odSet, hp, odLookup, hp'] using ih

theorem mem_odSet_of_mem (env : Env) (k v k' v' : String)
    (hmem : (k', v') ∈ env) (hne : k' ≠ k) : (k', v') ∈ odSet env k v := by
  induction env with
  | nil => simp at hmem
  | cons p rest ih =>
    rcases List.mem_cons.mp hmem with h | h
    · by_cases hp : p.1 = k
      · subst h
        exact absurd hp hne
      · simp [odSet, hp, h]
    · by_cases hp : p.1 = k
      · simp [odSet, hp, List.mem_cons, h]
      · simp [odSet, hp, List.mem_cons, ih h]

/-- A global environment that already carries a `SOURCE_DIR` entry, the input
on which claim C5 fails as stated. -/
def c5GlobalEnvCex : Env := [("TMP_ROOTS", "/tmp/roots"), ("SOURCE_DIR", "/custom")]

/-- C5 counterexample: with global environment
`[TMP_ROOTS = /tmp/roots, SOURCE_DIR = /custom]` (which does contain a
`TMP_ROOTS` entry), the composed build environment overwrites the global
`SOURCE_DIR` entry, so it does not contain every global-environment entry
unchanged as the claim states. -/
theorem c5_counterexample_global_entry_overwritten :
    ("SOURCE_DIR", "/custom") ∈ c5GlobalEnvCex
      ∧ odLookup c5GlobalEnvCex "TMP_ROOTS" = some "/tmp/roots"
      ∧ actionForBuildEnvironment c5GlobalEnvCex "/srcs" "/builds" "comp" "default"
          "comp-default"
        = .ok [("TMP_ROOTS", "/tmp/roots"), ("SOURCE_DIR", "/srcs/comp"),
            ("BUILD_DIR", "/builds/comp/default"), ("TMP_ROOT", "/tmp/roots/comp-default")]
      ∧ ("SOURCE_DIR", "/custom")
          ∉ [("TMP_ROOTS", "/tmp/roots"), ("SOURCE_DIR", "/srcs/comp"),
            ("BUILD_DIR", "/builds/comp/default"), ("TMP_ROOT", "/tmp/roots/comp-default")] := by
  refine ⟨by decide, by decide, by decide, by decide⟩

/-- C5 (amended): for every `ActionForBuild` whose global environment contains
a `TMP_ROOTS` entry, the environment property succeeds and yields a mapping in
which `SOURCE_DIR`, `BUILD_DIR` and `TMP_ROOT` have the claimed derived values,
every global-environment entry whose key is none of `SOURCE_DIR`, `BUILD_DIR`,
`TMP_ROOT` appears unchanged, and two reads without intervening configuration
changes yield identical mappings. -/
theorem c5_build_environment (globalEnv : Env)
    (sourcesDir buildsDir componentName buildName safeName tmpRoots : String)
    (h : odLookup globalEnv "TMP_ROOTS" = some tmpRoots) :
    ∃ e, actionForBuildEnvironment globalEnv sourcesDir buildsDir componentName
          buildName safeName = .ok e
      ∧ odLookup e "SOURCE_DIR" = some (pathJoin sourcesDir componentName)
      ∧ odLookup e "BUILD_DIR" = some (pathJoin (pathJoin buildsDir componentName) buildName)
      ∧ odLookup e "TMP_ROOT" = some (pathJoin tmpRoots safeName)
      ∧ (∀ k v, (k, v) ∈ globalEnv → k ≠ "SOURCE_DIR" → k ≠ "BUILD_DIR" →
          k ≠ "TMP_ROOT" → (k, v) ∈ e)
      ∧ actionForBuildEnvironment globalEnv sourcesDir buildsDir componentName
          buildName safeName
        = actionForBuildEnvironment globalEnv sourcesDir buildsDir componentName
            buildName safeName := by
  have hTR : odLookup
      (odSet (odSet globalEnv "SOURCE_DIR" (pathJoin sourcesDir componentName))
        "BUILD_DIR" (pathJoin (pathJoin buildsDir componentName) buildName))
      "TMP_ROOTS" = some tmpRoots := by
    rw [odLookup_odSet_other _ _ _ _ (by decide), odLookup_odSet_other _ _ _ _ (by decide), h]
  simp only [actionForBuildEnvironment, actionForComponentEnvironment, actionEnvironment,
    hTR]
  refine ⟨_, rfl, ?_, ?_, ?_, ?_, trivial⟩
  · rw [odLookup_odSet_other _ _ _ _ (by decide), odLookup_odSet_other _ _ _ _ (by decide),
      odLookup_odSet_self]
  · rw [odLookup_odSet_other _ _ _ _ (by decide), odLookup_odSet_self]
  · rw [odLookup_odSet_self]
  · intro k v hkv h1 h2 h3
    exact mem_odSet_of_mem _ _ _ _ _
      (mem_odSet_of_mem _ _ _ _ _ (mem_odSet_of_mem _ _ _ _ _ hkv h1) h2) h3

/-- Witness for C5 (amended) at the concrete global environment
`[TMP_ROOTS = /roots, PATH = /bin]`. -/
theorem c5_build_environment_witness :
    ∃ e, actionForBuildEnvironment [("TMP_ROOTS", "/roots"), ("PATH", "/bin")]
          "/srcs" "/builds" "comp" "default" "comp-default" = .ok e
      ∧ odLookup e "SOURCE_DIR" = some (pathJoin "/srcs" "comp")
      ∧ odLookup e "BUILD_DIR" = some (pathJoin (pathJoin "/builds" "comp") "default")
      ∧ odLookup e "TMP_ROOT" = some (pathJoin "/roots" "comp-default")
      ∧ (∀ k v, (k, v) ∈ ([("TMP_ROOTS", "/roots"), ("PATH", "/bin")] : Env) →
          k ≠ "SOURCE_DIR" → k ≠ "BUILD_DIR" → k ≠ "TMP_ROOT" → (k, v) ∈ e)
      ∧ actionForBuildEnvironment [("TMP_ROOTS", "/roots"), ("PATH", "/bin")]
          "/srcs" "/builds" "comp" "default" "comp-default"
        = actionForBuildEnvironment [("TMP_ROOTS", "/roots"), ("PATH", "/bin")]
            "/srcs" "/builds" "comp" "default" "comp-default" :=
  c5_build_environment [("TMP_ROOTS", "/roots"), ("PATH", "/bin")]
    "/srcs" "/builds" "comp" "default" "comp-default" "/roots" (by decide)

/-! ## CloneAction attribute resolution (clone.py lines 9-61, action.py lines 51-58)

`class CloneAction(Action)` derives directly from `Action`.  The attribute
tables below list what each class body defines, so that Python's lookup of a
method on a `CloneAction` instance can be followed literally: the subclass
body first, then the base class. -/

/-- The attributes the `CloneAction` class body defines (clone.py): note
`_is_satisfied`, with a leading underscore — not `is_satisfied`. -/
def cloneActionOwnAttrs : List String :=
  ["__init__", "script", "_is_satisfied", "branches", "get_remote_head", "_ls_remote",
   "repository"]

/-- The attributes the `Action` class body defines (action.py). -/
def actionOwnAttrs : List String :=
  ["__init__", "run", "_run", "script", "add_explicit_dependency", "dependencies",
   "dependencies_for_hash", "_implicit_dependencies", "_implicit_dependencies_for_hash",
   "is_satisfied", "environment", "_target_name", "name_for_info", "name_for_graph",
   "name_for_components", "__str__", "__repr__", "_run_user_script",
   "_run_internal_script", "_try_run_internal_script", "_get_script_output",
   "_try_get_script_output", "name", "config", "_explicit_dependencies", "_script"]

/-- `Action.is_satisfied` (action.py lines 51-53): unconditionally raises
`NotImplementedError`. -/
def actionIsSatisfied : Except PyError Bool := .error .notImplementedError

/-- `CloneAction._is_satisfied` (clone.py lines 31-32):
`os.path.exists(self.environment["SOURCE_DIR"])`.  `pathExists` is the
filesystem oracle; the subscript raises `KeyError` when the environment has no
`SOURCE_DIR` entry. -/
def cloneActionUnderIsSatisfied (pathExists : String → Bool) (env : Env) :
    Except PyError Bool :=
  match odLookup env "SOURCE_DIR" with
  | none => .error (.keyError "SOURCE_DIR")
  | some sourceDir => .ok (pathExists sourceDir)

/-- A call `cloneAction.is_satisfied()`: Python resolves the attribute on the
subclass first, then on `Action`. -/
def cloneActionIsSatisfiedCall (pathExists : String → Bool) (env : Env) :
    Except PyError Bool :=
  if cloneActionOwnAttrs.contains "is_satisfied" then
    cloneActionUnderIsSatisfied pathExists env
  else if actionOwnAttrs.contains "is_satisfied" then
    actionIsSatisfied
  else
    .error .attributeError

/-- `CloneAction.environment`: neither clone.py nor anything between
`CloneAction` and `Action` defines `environment`, so the property is inherited
from `Action` (action.py lines 55-58) and returns the configuration's global
environment unchanged. -/
def cloneActionEnvironment (globalEnv : Env) : Env :=
  actionEnvironment globalEnv

/-- C2: contrary to the claim, calling the public `is_satisfied()` on a
`CloneAction` always raises `NotImplementedError`: the clone.py class body
defines `_is_satisfied` but never overrides `is_satisfied`, so the call
resolves to the base `Action.is_satisfied`, whatever the filesystem and the
environment look like. -/
theorem c2_is_satisfied_raises_not_implemented (pathExists : String → Bool) (env : Env) :
    cloneActionOwnAttrs.contains "is_satisfied" = false
      ∧ cloneActionIsSatisfiedCall pathExists env = .error .notImplementedError := by
  exact ⟨by decide, rfl⟩

/-! ## Remote-head resolution (clone.py lines 38-61)

`get_remote_head` parses `git ls-remote` output with
`re.findall(r"([a-f0-9]*)\W*refs/heads/(.*)", result)`.  For this particular
pattern the regex engine's behaviour is deterministic: the two leading starred
character classes are disjoint from each other and from the first literal
character `r`, so no backtracking can produce a different match than taking
the maximal run of lowercase-hex characters, then the maximal run of non-word
characters, then the literal `refs/heads/`, then the rest of the line.  The
embedding below implements exactly that, restricted to ASCII word characters
(`git ls-remote` ref listings are ASCII). -/

/-- The character class `[a-f0-9]`. -/
def isHexLower (c : Char) : Bool :=
  ('a' ≤ c && c ≤ 'f') || ('0' ≤ c && c ≤ '9')

/-- The character class `\w` (ASCII fragment): letters, digits, underscore. -/
def isWordChar (c : Char) : Bool :=
  c.isAlphanum || c = '_'

/-- Strip the literal `lit` from the front of `s`, or fail. -/
def dropLit : List Char → List Char → Option (List Char)
  | [], s => some s
  | _ :: _, [] => none
  | l :: ls, c :: cs => if c = l then dropLit ls cs else none

/-- The characters of the literal `refs/heads/`. -/
def litRefsHeads : List Char := "refs/heads/".data

/-- Attempt the pattern at the head of `s`: maximal `[a-f0-9]*` run (the
commit group), maximal `\W*` run, the literal `refs/heads/`, then `(.*)` (the
branch group, up to the end of the line).  On success, return both groups and
the rest of the input after the match. -/
def matchAt (s : List Char) : Option ((String × String) × List Char) :=
  let commit := s.takeWhile isHexLower
  let r1 := s.dropWhile isHexLower
  let r2 := r1.dropWhile (fun c => !isWordChar c)
  match dropLit litRefsHeads r2 with
  | none => none
  | some r3 =>
      some ((String.mk commit, String.mk (r3.takeWhile (fun c => c ≠ '\n'))),
        r3.dropWhile (fun c => c ≠ '\n'))

theorem dropWhile_length_le {α : Type} (p : α → Bool) (l : List α) :
    (l.dropWhile p).length ≤ l.length :=
  (List.dropWhile_sublist p).length_le

theorem dropLit_length :
    ∀ (lit s r : List Char), dropLit lit s = some r → r.length + lit.length = s.length := by
  intro lit
  induction lit with
  | nil =>
    intro s r h
    simp [dropLit] at h
    simp [h]
  | cons l ls ih =>
    intro s r h
    cases s with
    | nil => simp [dropLit] at h
    | cons c cs =>
      by_cases hc : c = l
      · have := ih cs r (by simpa [dropLit, hc] using h)
        simp [List.length_cons, ← this]
        ring
      · simp [dropLit, hc] at h

theorem matchAt_rest_length_lt (s : List Char) (m : String × String) (r : List Char)
    (h : matchAt s = some (m, r)) : r.length < s.length := by
  unfold matchAt at h
  simp only [] at h
  rcases hd : dropLit litRefsHeads
      ((s.dropWhile isHexLower).dropWhile (fun c => !isWordChar c)) with _ | r3
  · rw [hd] at h
    simp at h
  · rw [hd] at h
    simp at h
    have hlen := dropLit_length _ _ _ hd
    have h1 : r3.length + litRefsHeads.length
        ≤ (s.dropWhile isHexLower).length := by
      rw [hlen]
      exact dropWhile_length_le _ _
    have h2 : (s.dropWhile isHexLower).length ≤ s.length :=
      dropWhile_length_le _ _
    have h3 : r.length ≤ r3.length := by
      rw [← h.2]
      exact dropWhile_length_le _ _
    have hlit : litRefsHeads.length = 11 := by decide
    omega

/-- The scan of `re.findall(parse_regex, result)` with explicit fuel: emit
each non-overlapping match left to right, resume after the end of a match or
advance one character when no match starts here.  Every step strictly shortens
the input (a successful match consumes at least the literal `refs/heads/`), so
fuel equal to the input length never runs out; the fuel only keeps the
recursion structural, hence kernel-evaluable. -/
def findMatchesAux : ℕ → List Char → List (String × String)
  | 0, _ => []
  | _ + 1, [] => []
  | fuel + 1, c :: rest =>
      match matchAt (c :: rest) with
      | some (m, rest2) => m :: findMatchesAux fuel rest2
      | none => findMatchesAux fuel rest

/-- `re.findall(parse_regex, result)` over the characters of `result`. -/
def findMatches (s : List Char) : List (String × String) :=
  findMatchesAux s.length s

/-- The fuel is irrelevant as soon as it covers the input length, so
`findMatches` computes the same list as the unbounded left-to-right scan. -/
theorem findMatchesAux_congr :
    ∀ (fuel fuel2 : ℕ) (s : List Char), s.length ≤ fuel → s.length ≤ fuel2 →
      findMatchesAux fuel s = findMatchesAux fuel2 s := by
  intro fuel
  induction fuel with
  | zero =>
    intro fuel2 s h1 h2
    have : s = [] := List.eq_nil_of_length_eq_zero (Nat.le_zero.mp h1)
    subst this
    cases fuel2 <;> rfl
  | succ f ih =>
    intro fuel2 s h1 h2
    cases s with
    | nil => cases fuel2 <;> rfl
    | cons c rest =>
      cases fuel2 with
      | zero => simp at h2
      | succ f2 =>
        show (match matchAt (c :: rest) with
            | some (m, rest2) => m :: findMatchesAux f rest2
            | none => findMatchesAux f rest) =
          (match matchAt (c :: rest) with
            | some (m, rest2) => m :: findMatchesAux f2 rest2
            | none => findMatchesAux f2 rest)
        cases hm : matchAt (c :: rest) with
        | some pr =>
          have hlt := matchAt_rest_length_lt (c :: rest) pr.1 pr.2 (by rw [hm])
          simp only [List.length_cons] at hlt h1 h2
          have hle : pr.2.length ≤ f := by omega
          have hle2 : pr.2.length ≤ f2 := by omega
          simp [ih f2 pr.2 hle hle2]
        | none =>
          simp only [List.length_cons] at h1 h2
          have hle : rest.length ≤ f := by omega
          have hle2 : rest.length ≤ f2 := by omega
          simp [ih f2 rest hle hle2]

/-- The inner loop of `get_remote_head` (clone.py lines 49-51): the first
parsed `(commit, branch)` pair whose branch is in `self.branches()`. -/
def findHead : List (String × String) → Option String
  | [] => none
  | (commit, branch) :: rest =>
      if branches.contains branch then some commit else findHead rest

/-- The outer loop of `get_remote_head` (clone.py lines 45-52): try each
candidate remote in order; a remote whose listing yields no matching branch
just advances the scan; `None` when all candidates are exhausted.  `ls` is the
`_ls_remote` oracle: the decoded stdout of the non-raising
`git ls-remote -h --refs` run (an unreachable remote simply produces output
with no matching line). -/
def scanRemotes (ls : String → String) : List String → Option String
  | [] => none
  | remote :: rest =>
      match findHead (findMatches (ls remote).data) with
      | some commit => some commit
      | none => scanRemotes ls rest

/-- `CloneAction.get_remote_head` (clone.py lines 38-52), one uncached
evaluation: build the candidate list from the configured remote base URLs
joined with the repository identifier in priority order, prepend the local
clone's `.git` path when it exists, then scan.  The `SOURCE_DIR` subscript
raises `KeyError` when the environment lacks it. -/
def cloneActionGetRemoteHead (pathExists : String → Bool) (ls : String → String)
    (env : Env) (remotes : List String) (repository : String) :
    Except PyError (Option String) :=
  let rs := remotes.map (fun base_url => base_url ++ "/" ++ repository)
  match odLookup env "SOURCE_DIR" with
  | none => .error (.keyError "SOURCE_DIR")
  | some sourceDir =>
      let local_repo := pathJoin sourceDir ".git"
      let candidates := if pathExists local_repo then local_repo :: rs else rs
      .ok (scanRemotes ls candidates)

/-- The candidate list the claim describes: the configured remote base URLs
joined with the repository identifier in priority order, with the local
clone's `.git` path prepended when that path exists. -/
def claimCandidates (pathExists : String → Bool) (remotes : List String)
    (repository sourceDir : String) : List String :=
  (if pathExists (pathJoin sourceDir ".git") then [pathJoin sourceDir ".git"] else [])
    ++ remotes.map (fun base_url => base_url ++ "/" ++ repository)

/-- All parsed `(commit, branch)` lines of all candidates, in candidate order:
the claim-side reading of the nested scan. -/
def allParsedLines (ls : String → String) : List String → List (String × String)
  | [] => []
  | remote :: rest => findMatches (ls remote).data ++ allParsedLines ls rest

theorem findHead_eq_find (ms : List (String × String)) :
    findHead ms = (ms.find? (fun p => branches.contains p.2)).map Prod.fst := by
  induction ms with
  | nil => rfl
  | cons p rest ih =>
    rcases p with ⟨c, b⟩
    show (if branches.contains b then some c else findHead rest) = _
    cases hb : branches.contains b with
    | true =>
        rw [List.find?_cons_of_pos rest hb]
        simp
    | false =>
        rw [List.find?_cons_of_neg rest (by simpa using hb), ih]
        simp

theorem find_append {α : Type} (p : α → Bool) (l1 l2 : List α) :
    (l1 ++ l2).find? p = match l1.find? p with
      | some x => some x
      | none => l2.find? p := by
  induction l1 with
  | nil => simp
  | cons a l ih =>
    by_cases h : p a
    · simp [List.find?, h]
    · simp [List.find?, h, ih]

theorem scanRemotes_eq_first_match (ls : String → String) (cs : List String) :
    scanRemotes ls cs
      = ((allParsedLines ls cs).find?
            (fun p => (["develop", "master"] : List String).contains p.2)).map Prod.fst := by
  induction cs with
  | nil => rfl
  | cons r rest ih =>
    show (match findHead (findMatches (ls r).data) with
      | some commit => some commit
      | none => scanRemotes ls rest) =
      ((findMatches (ls r).data ++ allParsedLines ls rest).find?
          (fun p => branches.contains p.2)).map Prod.fst
    rw [find_append, findHead_eq_find]
    cases hf : (findMatches (ls r).data).find? (fun p => branches.contains p.2) with
    | some p => rfl
    | none =>
        show scanRemotes ls rest = _
        exact ih

/-! ## Memoization (clone.py lines 38 and 54: the two `lru_cache` decorators)

`get_remote_head` takes no argument besides `self` and `_ls_remote` is keyed
by its `remote` argument, so for one action instance the caches are one slot
for `get_remote_head` and one map from remote to decoded listing for
`_ls_remote`.  The definitions thread the cache state explicitly and count
how many times the underlying listing (`run_script`) is invoked. -/

structure CloneCaches where
  headCache : Option (Option String)
  lsCache : List (String × String)
  deriving DecidableEq, Repr

/-- `_ls_remote` through its `lru_cache`: a hit returns the cached decoded
stdout with no invocation; a miss invokes the listing once and stores it. -/
def lsRemoteCached (ls : String → String) (st : CloneCaches) (remote : String) :
    String × CloneCaches × ℕ :=
  match odLookup st.lsCache remote with
  | some out => (out, st, 0)
  | none => (ls remote, ⟨st.headCache, st.lsCache ++ [(remote, ls remote)]⟩, 1)

/-- The scan of `get_remote_head` with `_ls_remote` going through its cache. -/
def scanRemotesCached (ls : String → String) :
    List String → CloneCaches → Option String × CloneCaches × ℕ
  | [], st => (none, st, 0)
  | remote :: rest, st =>
      let r1 := lsRemoteCached ls st remote
      match findHead (findMatches r1.1.data) with
      | some commit => (some commit, r1.2.1, r1.2.2)
      | none =>
          let r2 := scanRemotesCached ls rest r1.2.1
          (r2.1, r2.2.1, r1.2.2 + r2.2.2)

/-- `get_remote_head` through its `lru_cache`: a hit returns the cached result
untouched; a miss runs the scan and stores the result. -/
def getRemoteHeadCached (ls : String → String) (candidates : List String)
    (st : CloneCaches) : Option String × CloneCaches × ℕ :=
  match st.headCache with
  | some r => (r, st, 0)
  | none =>
      let r := scanRemotesCached ls candidates st
      (r.1, ⟨some r.1, r.2.1.lsCache⟩, r.2.2)

/-- The listing cache only holds values the listing oracle would produce. -/
def CacheConsistent (ls : String → String) (st : CloneCaches) : Prop :=
  ∀ p ∈ st.lsCache, ls p.1 = p.2

theorem odLookup_mem : ∀ (l : Env) (k v : String), odLookup l k = some v → (k, v) ∈ l := by
  intro l
  induction l with
  | nil => intro k v h; simp [odLookup] at h
  | cons p rest ih =>
    intro k v h
    simp only [odLookup] at h
    by_cases hp : p.1 = k
    · rw [if_pos hp] at h
      have hv : p.2 = v := by injection h
      have hpkv : p = (k, v) := by
        rcases p with ⟨pk, pv⟩
        simp only at hp hv
        rw [hp, hv]
      exact List.mem_cons.mpr (Or.inl hpkv.symm)
    · rw [if_neg hp] at h
      exact List.mem_cons.mpr (Or.inr (ih k v h))

theorem lsRemoteCached_spec (ls : String → String) (st : CloneCaches) (remote : String)
    (h : CacheConsistent ls st) :
    (lsRemoteCached ls st remote).1 = ls remote
      ∧ CacheConsistent ls (lsRemoteCached ls st remote).2.1 := by
  unfold lsRemoteCached
  cases hl : odLookup st.lsCache remote with
  | some out =>
    refine ⟨?_, h⟩
    exact (h (remote, out) (odLookup_mem _ _ _ hl)).symm
  | none =>
    refine ⟨rfl, ?_⟩
    intro p hp
    rcases List.mem_append.mp hp with hp | hp
    · exact h p hp
    · simp at hp
      simp [hp]

theorem scanRemotesCached_spec (ls : String → String) :
    ∀ (cs : List String) (st : CloneCaches), CacheConsistent ls st →
      (scanRemotesCached ls cs st).1 = scanRemotes ls cs
        ∧ CacheConsistent ls (scanRemotesCached ls cs st).2.1 := by
  intro cs
  induction cs with
  | nil => intro st h; exact ⟨rfl, h⟩
  | cons remote rest ih =>
    intro st h
    have h1 := lsRemoteCached_spec ls st remote h
    unfold scanRemotesCached
    simp only [h1.1]
    cases hf : findHead (findMatches (ls remote).data) with
    | some commit =>
      refine ⟨?_, h1.2⟩
      simp [scanRemotes, hf]
    | none =>
      have h2 := ih (lsRemoteCached ls st remote).2.1 h1.2
      refine ⟨?_, h2.2⟩
      simp [scanRemotes, hf, h2.1]

/-- C4: with a `SOURCE_DIR` entry present, `get_remote_head` (1) returns the
scan of the claimed candidate list — configured remotes joined with the
repository in priority order, the local `.git` path prepended when it exists;
(2) the scan result is the commit of the first parsed `<hash> refs/heads/<branch>`
line over all candidates whose branch is develop or master, `None` when no
candidate yields a match; (3) a candidate whose listing yields no matching
line merely advances the scan; (4) the memoized evaluation returns the same
result as the plain scan, and a repeated call on the same instance returns the
identical result with zero further listing invocations. -/
theorem c4_get_remote_head_resolution (pathExists : String → Bool) (ls : String → String)
    (env : Env) (remotes : List String) (repository sourceDir : String)
    (hsd : odLookup env "SOURCE_DIR" = some sourceDir) :
    (cloneActionGetRemoteHead pathExists ls env remotes repository
        = .ok (scanRemotes ls (claimCandidates pathExists remotes repository sourceDir)))
      ∧ (∀ cs : List String, scanRemotes ls cs
          = ((allParsedLines ls cs).find?
                (fun p => (["develop", "master"] : List String).contains p.2)).map Prod.fst)
      ∧ (∀ (remote : String) (rest : List String),
          findHead (findMatches (ls remote).data) = none →
            scanRemotes ls (remote :: rest) = scanRemotes ls rest)
      ∧ ((getRemoteHeadCached ls (claimCandidates pathExists remotes repository sourceDir)
            ⟨none, []⟩).1
          = scanRemotes ls (claimCandidates pathExists remotes repository sourceDir))
      ∧ (getRemoteHeadCached ls (claimCandidates pathExists remotes repository sourceDir)
            ((getRemoteHeadCached ls (claimCandidates pathExists remotes repository sourceDir)
              ⟨none, []⟩).2.1)
          = ((getRemoteHeadCached ls (claimCandidates pathExists remotes repository sourceDir)
                ⟨none, []⟩).1,
              (getRemoteHeadCached ls (claimCandidates pathExists remotes repository sourceDir)
                ⟨none, []⟩).2.1, 0)) := by
  have hfresh : CacheConsistent ls ⟨none, []⟩ := by
    intro p hp
    simp at hp
  have hscan := scanRemotesCached_spec ls
    (claimCandidates pathExists remotes repository sourceDir) ⟨none, []⟩ hfresh
  refine ⟨?_, ?_, ?_, ?_, ?_⟩
  · unfold cloneActionGetRemoteHead
    rw [hsd]
    unfold claimCandidates
    cases hx : pathExists (pathJoin sourceDir ".git") <;> simp [hx]
  · intro cs
    exact scanRemotes_eq_first_match ls cs
  · intro remote rest hnone
    simp [scanRemotes, hnone]
  · show (getRemoteHeadCached ls _ ⟨none, []⟩).1 = _
    unfold getRemoteHeadCached
    simpa using hscan.1
  · unfold getRemoteHeadCached
    simp

/-- C10: `CloneAction` inherits `environment` straight from `Action`, so it is
exactly the global environment with no `SOURCE_DIR` added; when the global
environment lacks a `SOURCE_DIR` key, both `_is_satisfied()` and
`get_remote_head()` raise `KeyError` on the `environment["SOURCE_DIR"]`
subscript. -/
theorem c10_no_source_dir_key_error (globalEnv : Env) (pathExists : String → Bool)
    (ls : String → String) (remotes : List String) (repository : String)
    (h : odLookup globalEnv "SOURCE_DIR" = none) :
    cloneActionEnvironment globalEnv = globalEnv
      ∧ cloneActionOwnAttrs.contains "environment" = false
      ∧ odLookup (cloneActionEnvironment globalEnv) "SOURCE_DIR" = none
      ∧ cloneActionUnderIsSatisfied pathExists globalEnv = .error (.keyError "SOURCE_DIR")
      ∧ cloneActionGetRemoteHead pathExists ls globalEnv remotes repository
          = .error (.keyError "SOURCE_DIR") := by
  refine ⟨rfl, by decide, h, ?_, ?_⟩
  · unfold cloneActionUnderIsSatisfied
    rw [h]
  · unfold cloneActionGetRemoteHead
    rw [h]

/-- A listing oracle answering the spec's test vector for every remote. -/
def exListingDevelop : String → String := fun _ => "abc123\trefs/heads/develop\n"

/-- A filesystem oracle on which no path exists (no local clone yet). -/
def exNoLocalClone : String → Bool := fun _ => false

/-- A concrete clone-action environment carrying a `SOURCE_DIR` entry. -/
def exEnv : Env := [("SOURCE_DIR", "/sources/foo")]

/-- A concrete global environment with no `SOURCE_DIR` entry. -/
def exEnvNoSource : Env := [("PATH", "/usr/bin")]

set_option maxRecDepth 16384 in
/-- Witness for C4 at the spec's own test vector: with the listing
`abc123\trefs/heads/develop\n` the resolution returns `abc123`. -/
theorem c4_get_remote_head_resolution_witness :
    odLookup exEnv "SOURCE_DIR" = some "/sources/foo"
      ∧ cloneActionGetRemoteHead exNoLocalClone exListingDevelop exEnv
          ["https://rem"] "foo"
        = .ok (scanRemotes exListingDevelop
            (claimCandidates exNoLocalClone ["https://rem"] "foo" "/sources/foo"))
      ∧ cloneActionGetRemoteHead exNoLocalClone exListingDevelop exEnv
          ["https://rem"] "foo"
        = .ok (some "abc123") :=
  ⟨by decide,
   (c4_get_remote_head_resolution exNoLocalClone exListingDevelop exEnv
      ["https://rem"] "foo" "/sources/foo" (by decide)).1,
   by decide⟩

/-- Witness for C10 at a concrete global environment lacking `SOURCE_DIR`. -/
theorem c10_no_source_dir_key_error_witness :
    odLookup exEnvNoSource "SOURCE_DIR" = none
      ∧ cloneActionEnvironment exEnvNoSource = exEnvNoSource
      ∧ cloneActionUnderIsSatisfied exNoLocalClone exEnvNoSource
          = .error (.keyError "SOURCE_DIR")
      ∧ cloneActionGetRemoteHead exNoLocalClone exListingDevelop exEnvNoSource
          ["https://rem"] "foo"
        = .error (.keyError "SOURCE_DIR") := by
  have h := c10_no_source_dir_key_error exEnvNoSource exNoLocalClone exListingDevelop
    ["https://rem"] "foo" (by decide)
  exact ⟨by decide, h.1, h.2.2.2.1, h.2.2.2.2⟩

set_option maxRecDepth 16384 in
example : findMatches "abc123\trefs/heads/develop\n".data = [("abc123", "develop")] := by
  decide

set_option maxRecDepth 16384 in
example : scanRemotes (fun _ => "feature only\ncafe\trefs/heads/feature\n")
    ["https://rem/foo"] = none := by
  decide

set_option maxRecDepth 16384 in
example :
    getRemoteHeadCached exListingDevelop ["https://rem/foo"] ⟨none, []⟩
      = (some "abc123",
          ⟨some (some "abc123"),
            [("https://rem/foo", "abc123\trefs/heads/develop\n")]⟩, 1) := by
  decide

set_option maxRecDepth 16384 in
example :
    getRemoteHeadCached exListingDevelop ["https://rem/foo"]
        ⟨some (some "abc123"), [("https://rem/foo", "abc123\trefs/heads/develop\n")]⟩
      = (some "abc123",
          ⟨some (some "abc123"),
            [("https://rem/foo", "abc123\trefs/heads/develop\n")]⟩, 0) := by
  decide

/-! ## Script runner failure taxonomy (util/__init__.py lines 13-118)

The wrappers in util/__init__.py delegate to the primitives of
`orchestra/actions/util/impl.py`, a module of this repository that is not part
of the sources in scope; only its import and call sites are.  The three
primitives are therefore modelled from the spec; the wrappers below them are
transliterated from util/__init__.py.  A script's observable behaviour is its
exit code and captured stdout, passed in explicitly. -/

/-- The error taxonomy of the script runner: user-script failures and internal
failures are distinct kinds. -/
inductive ScriptFailure where
  | userScriptException (returncode : Int)
  | internalScriptException (returncode : Int)
  deriving DecidableEq, Repr

/-- Modelled from the spec: `_run_user_script` (util/impl.py, not under the
sources in scope), §4.2: executes the script; when `check_returncode` is set
and the exit code is nonzero, logs and raises a user script failure; otherwise
hands back the exit code. -/
def _run_user_script (returncode : Int) (check_returncode : Bool) :
    Except ScriptFailure Int :=
  if check_returncode && returncode != 0 then .error (.userScriptException returncode)
  else .ok returncode

/-- Modelled from the spec: `_run_internal_script` (util/impl.py, not under
the sources in scope), §4.2: same execution path, raising an internal script
failure instead when `check_returncode` is set and the exit code is nonzero. -/
def _run_internal_script (returncode : Int) (check_returncode : Bool) :
    Except ScriptFailure Int :=
  if check_returncode && returncode != 0 then .error (.internalScriptException returncode)
  else .ok returncode

/-- Modelled from the spec: `_get_script_output` (util/impl.py, not under the
sources in scope), §4.2: executes, decodes the captured stdout, returns the
pair of exit code and decoded text, raising an internal script failure when
`check_returncode` is set and the exit code is nonzero. -/
def _get_script_output (returncode : Int) (stdout : String) (check_returncode : Bool) :
    Except ScriptFailure (Int × String) :=
  if check_returncode && returncode != 0 then .error (.internalScriptException returncode)
  else .ok (returncode, stdout)

/-- `run_internal_script` (util/__init__.py lines 13-20):
`check_returncode=True`, no return value. -/
def run_internal_script (returncode : Int) : Except ScriptFailure Unit :=
  (_run_internal_script returncode true).map (fun _ => ())

/-- `try_run_internal_script` (util/__init__.py lines 23-30):
`check_returncode=False`, returns the exit code. -/
def try_run_internal_script (returncode : Int) : Except ScriptFailure Int :=
  _run_internal_script returncode false

/-- `run_user_script` (util/__init__.py lines 33-40): `check_returncode=True`,
no return value. -/
def run_user_script (returncode : Int) : Except ScriptFailure Unit :=
  (_run_user_script returncode true).map (fun _ => ())

/-- `get_script_output` (util/__init__.py lines 82-98): raising variant,
returns the decoded stdout only. -/
def get_script_output (returncode : Int) (stdout : String) :
    Except ScriptFailure String :=
  (_get_script_output returncode stdout true).map Prod.snd

/-- `try_get_script_output` (util/__init__.py lines 101-118): non-raising
variant, returns the `(returncode, decoded stdout)` pair. -/
def try_get_script_output (returncode : Int) (stdout : String) :
    Except ScriptFailure (Int × String) :=
  _get_script_output returncode stdout false

/-- C8: a nonzero exit code raises the user failure kind through
`run_user_script` and the internal failure kind — a distinct exception type —
through `run_internal_script` and `get_script_output`, while
`try_run_internal_script` returns the exit code and `try_get_script_output`
returns the exit code paired with the decoded stdout, neither raising. -/
theorem c8_script_failure_taxonomy (returncode : Int) (stdout : String)
    (h : returncode ≠ 0) :
    run_user_script returncode = .error (.userScriptException returncode)
      ∧ run_internal_script returncode = .error (.internalScriptException returncode)
      ∧ get_script_output returncode stdout = .error (.internalScriptException returncode)
      ∧ try_run_internal_script returncode = .ok returncode
      ∧ try_get_script_output returncode stdout = .ok (returncode, stdout)
      ∧ (ScriptFailure.userScriptException returncode
          ≠ ScriptFailure.internalScriptException returncode) := by
  have hb : (returncode != 0) = true := by simpa using h
  refine ⟨?_, ?_, ?_, ?_, ?_, by simp⟩
  · simp [run_user_script, _run_user_script, hb, Except.map]
  · simp [run_internal_script, _run_internal_script, hb, Except.map]
  · simp [get_script_output, _get_script_output, hb, Except.map]
  · simp [try_run_internal_script, _run_internal_script]
  · simp [try_get_script_output, _get_script_output]

/-- Witness for C8 at exit code 1 with stdout `out`. -/
theorem c8_script_failure_taxonomy_witness :
    run_user_script 1 = .error (.userScriptException 1)
      ∧ run_internal_script 1 = .error (.internalScriptException 1)
      ∧ get_script_output 1 "out" = .error (.internalScriptException 1)
      ∧ try_run_internal_script 1 = .ok 1
      ∧ try_get_script_output 1 "out" = .ok (1, "out")
      ∧ (ScriptFailure.userScriptException 1 ≠ ScriptFailure.internalScriptException 1) :=
  c8_script_failure_taxonomy 1 "out" (by decide)

/-! ## Dependency-graph diagnostics (graph.py lines 29-57)

`print_dependencies` walks the dependency graph depth-first from the given
root actions, guarding against re-visiting, collects node-declaration and edge
rows into a set, and prints the rows sorted.  An action's dependencies are a
Python set, so their iteration order is unspecified; the embedding fixes a
list order, and none of the properties proved below depend on it (the row set,
its size and its sorted rendering are iteration-order independent).  The
readiness probes `is_satisfied(recursively=True)` and `can_run()` are
implemented by the action model outside this file's sources and enter the
embedding as per-node booleans. -/

/-- One action as the traversal sees it: its `name_for_graph`, its dependency
indices into the surrounding action list, and its two readiness probes. -/
structure GAction where
  name_for_graph : String
  deps : List ℕ
  satisfiedRecursively : Bool
  canRun : Bool
  deriving DecidableEq, Repr

/-- The fill color (graph.py lines 36-41): green when satisfied recursively,
orange when runnable, red otherwise. -/
def graphColor (a : GAction) : String :=
  if a.satisfiedRecursively then "green" else if a.canRun then "orange" else "red"

/-- The node-declaration row (graph.py line 43). -/
def nodeRow (a : GAction) : String :=
  "  \"" ++ a.name_for_graph ++ "\"[ shape=box, style=filled, color="
    ++ graphColor a ++ " ];"

/-- The edge row from a dependency to its dependent (graph.py line 45). -/
def edgeRow (d a : GAction) : String :=
  "  \"" ++ d.name_for_graph ++ "\" -> \"" ++ a.name_for_graph ++ "\";"

/-- `rows.add(r)` on the Python set of rows, as an insertion-ordered
duplicate-free list. -/
def addRow (rows : List String) (r : String) : List String :=
  if rows.contains r then rows else rows ++ [r]

/-- The traversal state: the `already_visited_actions` set, the `rows` set,
and the order in which action bodies were processed (for counting visits). -/
structure TravState where
  visited : List ℕ
  rows : List String
  processed : List ℕ
  deriving DecidableEq, Repr

/-- `_print_dependencies` (graph.py lines 32-50): return early on an already
visited action, otherwise add the node row and one edge row per dependency,
mark the action visited, then recurse into the dependencies.  The fuel only
bounds the recursion depth: every level deeper visits a previously unvisited
action or returns at the guard, so `g.length + 1` never runs out on the
acyclic graphs the source assumes (a true cycle recurses unboundedly there,
a documented limitation). -/
def visitAction (g : List GAction) : ℕ → ℕ → TravState → TravState
  | 0, _, st => st
  | fuel + 1, i, st =>
      if st.visited.contains i then st
      else
        match g[i]? with
        | none => st
        | some a =>
            let rows := addRow st.rows (nodeRow a)
            let rows := a.deps.foldl (fun rs j =>
                match g[j]? with
                | some d => addRow rs (edgeRow d a)
                | none => rs) rows
            let st1 : TravState := ⟨st.visited ++ [i], rows, st.processed ++ [i]⟩
            a.deps.foldl (fun s j => visitAction g fuel j s) st1

/-- `print_dependencies` (graph.py lines 29-55) up to the final print: run the
traversal from each root action in turn. -/
def print_dependencies (g : List GAction) (actions : List ℕ) : TravState :=
  actions.foldl (fun st i => visitAction g (g.length + 1) i st) ⟨[], [], []⟩

/-- Code-point lexicographic comparison of character lists: exactly the string
ordering Python's `sorted` uses (kept kernel-reducible). -/
def charsLt : List Char → List Char → Bool
  | [], [] => false
  | [], _ :: _ => true
  | _ :: _, [] => false
  | a :: as, b :: bs =>
      if a.toNat < b.toNat then true
      else if b.toNat < a.toNat then false
      else charsLt as bs

/-- Code-point lexicographic order on strings. -/
def strLt (a b : String) : Bool := charsLt a.data b.data

/-- Ascending insertion into a sorted list of strings. -/
def insertSorted (x : String) : List String → List String
  | [] => [x]
  | y :: ys => if strLt y x then y :: insertSorted x ys else x :: y :: ys

/-- Python's `sorted(rows)`: the rows in ascending lexicographic order. -/
def sortRows (rows : List String) : List String :=
  rows.foldr insertSorted []

/-- The graph body as printed (graph.py lines 56-57): the deduplicated rows,
lexicographically sorted, emitted between the `digraph` header and the closing
brace printed by `handle_graph`. -/
def print_dependencies_output (g : List GAction) (actions : List ℕ) : List String :=
  sortRows (print_dependencies g actions).rows

/-- The diamond of the claim: `D` (index 3) depends on `B` (1) and `C` (2),
which both depend on `A` (0); `A` reports satisfied, `B` and `C` runnable,
`D` blocked. -/
def diamondActions : List GAction :=
  [⟨"A", [], true, true⟩,
   ⟨"B", [0], false, true⟩,
   ⟨"C", [0], false, true⟩,
   ⟨"D", [1, 2], false, false⟩]

/-- The four distinct edge rows of the diamond. -/
def diamondEdgeRows : List String :=
  ["  \"A\" -> \"B\";", "  \"A\" -> \"C\";", "  \"B\" -> \"D\";", "  \"C\" -> \"D\";"]

set_option maxRecDepth 32768 in
/-- C9: on the diamond `D → {B, C} → A`, traversal from `D` processes `A`
exactly once; the graph body has exactly one node-declaration row per action
and exactly one edge row per (dependency, dependent) pair — 4 distinct edges,
8 distinct rows in all — and the body is emitted in strictly ascending
lexicographic order between the header and the footer. -/
theorem c9_diamond_graph :
    (print_dependencies diamondActions [3]).processed.count 0 = 1
      ∧ (∀ a ∈ diamondActions,
          (print_dependencies diamondActions [3]).rows.count (nodeRow a) = 1)
      ∧ (∀ e ∈ diamondEdgeRows,
          (print_dependencies diamondActions [3]).rows.count e = 1)
      ∧ diamondEdgeRows.length = 4
      ∧ diamondEdgeRows.Nodup
      ∧ (print_dependencies diamondActions [3]).rows.length = 8
      ∧ (print_dependencies diamondActions [3]).rows.Nodup
      ∧ print_dependencies_output diamondActions [3]
          = ["  \"A\" -> \"B\";",
             "  \"A\" -> \"C\";",
             "  \"A\"[ shape=box, style=filled, color=green ];",
             "  \"B\" -> \"D\";",
             "  \"B\"[ shape=box, style=filled, color=orange ];",
             "  \"C\" -> \"D\";",
             "  \"C\"[ shape=box, style=filled, color=orange ];",
             "  \"D\"[ shape=box, style=filled, color=red ];"]
      ∧ List.Pairwise (fun a b : String => strLt a b = true)
          (print_dependencies_output diamondActions [3]) := by
  decide

end Orchestra
